import Mathlib

/-!
Shallow embedding of `contribute.py` (github-activity-generator).

Time model: a timestamp is a number of minutes since 1970-01-01 00:00 UTC;
a calendar day is `t / 1440`; Python's `weekday()` (Monday = 0 … Sunday = 6)
of day `d` (days since the epoch, a Thursday) is `(d + 3) % 7`.

Randomness: the ambient numpy generator is modelled by an `Oracle` giving,
for the i-th day of the range, the value of the `np.random.rand()` call
(as a rational in `[0,1)`) and raw draws for the two `np.random.randint`
calls; `np.random.randint(low, high)` returns a value in `[low, high)` and
raises `ValueError: low >= high` when `low >= high`, which the embedding
renders as `Except.error "low >= high"`.
-/

instance {e a : Type} [DecidableEq e] [DecidableEq a] : DecidableEq (Except e a) := fun x y =>
  match x, y with
  | .ok u, .ok v => if h : u = v then isTrue (by rw [h]) else isFalse (by simp [h])
  | .error u, .error v => if h : u = v then isTrue (by rw [h]) else isFalse (by simp [h])
  | .ok _, .error _ => isFalse (by simp)
  | .error _, .ok _ => isFalse (by simp)

namespace Contribute

/-- Source constant `MAX_COMMITS_PER_DAY`. -/
def MAX_COMMITS_PER_DAY : Nat := 20

/-- Source constant `MIN_COMMITS_PER_DAY`. -/
def MIN_COMMITS_PER_DAY : Nat := 1

/-- Source constant `DEFAULT_MAX_COMMITS`. -/
def DEFAULT_MAX_COMMITS : Nat := 10

/-- Source constant `DEFAULT_FREQUENCY`. -/
def DEFAULT_FREQUENCY : Nat := 80

/-- Source constant `MAIN_BRANCH`. -/
def MAIN_BRANCH : String := "main"

/-- Source constant `REPOSITORY_PREFIX` (renamed; the string `'repository-'`
prepended to a timestamp when no repository name is given). -/
def REPOSITORY_STEM : String := "repository-"

/-- Minutes in one calendar day. -/
def minutesPerDay : Nat := 1440

/-- Calendar day (days since 1970-01-01) of a minute timestamp. -/
def dayOf (t : Nat) : Nat := t / 1440

/-- Python `datetime.weekday()` of epoch day `d`: Monday = 0 … Sunday = 6
(1970-01-01 is a Thursday, weekday 3). -/
def weekday (d : Nat) : Nat := (d + 3) % 7

/-- Saturday (5) or Sunday (6) in Python's weekday convention. -/
def isWeekend (d : Nat) : Bool := weekday d == 5 || weekday d == 6

/-- The `Args` parameter record of `contribute.py` (class `Args`): dates are
minute timestamps, `max_commits`/`frequency` the integer CLI values. -/
structure Args where
  no_weekends : Bool
  max_commits : Nat
  frequency : Nat
  repository : String
  user_name : String
  user_email : String
  day_start : Nat
  day_end : Nat
  num_clusters : Nat := 1

/-- Outcomes of the ambient numpy random generator, indexed by the day
position in the generated range: `rand i` is the i-th `np.random.rand()`
value, `int1 i` / `int2 i` are raw draws determining the i-th day's
`np.random.randint(1, max_commits)` / `np.random.randint(0, k)` results. -/
structure Oracle where
  rand : Nat → ℚ
  int1 : Nat → Nat
  int2 : Nat → Nat

/-- `np.random.randint(low, high)`: raises when `low >= high`, otherwise
returns a value in `[low, high)` (here `low + draw % (high - low)`, so that
every value of the interval is reachable from some raw draw). -/
def npRandint (draw low high : Nat) : Except String Nat :=
  if high ≤ low then .error "low >= high"
  else .ok (low + draw % (high - low))

/-- One entry of the `commit_data` list comprehension in `generate_commits`:
`np.random.randint(0, np.random.randint(1, max_commits)) if np.random.rand() < frequency else 0`
where `frequency = args.frequency / 100` (the exact rational `mkRat freq 100`,
which both the float `0/100` and `100/100` represent exactly). -/
def commitDataEntry (mc freq : Nat) (o : Oracle) (i : Nat) : Except String Nat :=
  if o.rand i < mkRat freq 100 then
    match npRandint (o.int1 i) 1 mc with
    | .error e => .error e
    | .ok k => npRandint (o.int2 i) 0 k
  else .ok 0

/-- The whole `commit_data` list comprehension, evaluated left to right;
the first raising entry aborts the comprehension. -/
def commitData (mc freq : Nat) (o : Oracle) : List Nat → Except String (List Nat)
  | [] => .ok []
  | i :: is =>
    match commitDataEntry mc freq o i with
    | .error e => .error e
    | .ok c =>
      match commitData mc freq o is with
      | .error e => .error e
      | .ok cs => .ok (c :: cs)

/-- `pd.date_range(start=start_date, end=end_date)`: the daily timestamps
`start + n` days while they do not exceed `end`; empty when `end < start`. -/
def pdDateRange (startM endM : Nat) : List Nat :=
  if endM < startM then []
  else (List.range ((endM - startM) / 1440 + 1)).map (fun n => startM + n * 1440)

/-- The per-row body of the `df.iterrows()` loop in `generate_commits`:
if `row['commits'] > 0`, one commit at `row['date'] + timedelta(minutes=n)`
for `n = 0 … commits-1`. -/
def dayCommits (d c : Nat) : List Nat :=
  if 0 < c then (List.range c).map (fun m => d + m) else []

/-- `generate_commits` (the live scheduler, lines 158–175): builds the
pandas date range, draws `commit_data`, then emits the per-day minute
timestamps in order. Reads only `day_start`, `day_end`, `max_commits`
and `frequency` from `args` — in particular it never consults
`args.no_weekends`. -/
def generate_commits (args : Args) (o : Oracle) : Except String (List Nat) :=
  match commitData args.max_commits args.frequency o
      (List.range (pdDateRange args.day_start args.day_end).length) with
  | .error e => .error e
  | .ok cd =>
    .ok (((pdDateRange args.day_start args.day_end).zip cd).flatMap
      fun p => dayCommits p.1 p.2)

/-- The dead helper `date_range` (lines 178–182):
`[start + timedelta(n) for n in range((end - start).days + 1)]`. -/
def date_range (start_date end_date : Nat) : List Nat :=
  (List.range ((end_date - start_date) / 1440 + 1)).map (fun n => start_date + n * 1440)

/-- The dead helper `should_commit` (lines 184–188); `draw` is the raw value
behind Python's `randint(0, 100)` (both ends inclusive, hence `% 101`). -/
def should_commit (dayM : Nat) (no_weekends : Bool) (frequency : Nat) (draw : Nat) : Bool :=
  (!no_weekends || decide (weekday (dayOf dayM) < 5)) && decide (draw % 101 < frequency)

/-- The dead helper `contributions_per_day` (lines 219–224): clamps
`max_commits` into `[MIN_COMMITS_PER_DAY, MAX_COMMITS_PER_DAY]` and draws
`randint(1, clamped)` (both ends inclusive). -/
def contributions_per_day (max_commits draw : Nat) : Nat :=
  let mc := min (max max_commits MIN_COMMITS_PER_DAY) MAX_COMMITS_PER_DAY
  MIN_COMMITS_PER_DAY + draw % (mc - MIN_COMMITS_PER_DAY + 1)

/-- Observable side effects of the repository-initialisation phase
(filesystem and `git` subprocess calls). -/
inductive Effect where
  | chdir : String → Effect
  | mkdir : String → Effect
  | gitInit : String → Effect
  | gitConfigName : String → Effect
  | gitConfigEmail : String → Effect
deriving DecidableEq, Repr

/-- The working-directory name chosen by `create_repository`: the repository
argument when non-empty (Python truthiness), else the `repository-`-prefixed
current timestamp (`tsName` stands for `curr_date.strftime(...)`). -/
def repoDirectory (repository tsName : String) : String :=
  if repository ≠ "" then repository else REPOSITORY_STEM ++ tsName

/-- `create_repository` (lines 124–139): `dirExists` is the outcome of
`os.path.exists(directory)`. Returns the Python function's return value
(`True` when the directory pre-existed, `False` otherwise) together with
the effects performed. -/
def create_repository (repository tsName : String) (dirExists : Bool) :
    Bool × List Effect :=
  let directory := repoDirectory repository tsName
  if dirExists then (true, [Effect.chdir directory])
  else (false, [Effect.mkdir directory, Effect.chdir directory, Effect.gitInit MAIN_BRANCH])

/-- `configure_git` (lines 149–156): sets `user.name` / `user.email` only
when the corresponding argument is non-empty (Python truthiness). -/
def configure_git (user_name user_email : String) : List Effect :=
  (if user_name ≠ "" then [Effect.gitConfigName user_name] else []) ++
  (if user_email ≠ "" then [Effect.gitConfigEmail user_email] else [])

/-- The repository-initialisation fragment of `main` (lines 72–74):
`directory_exists = create_repository(args); if not directory_exists:
configure_git(args)`; returns the combined effect trace. -/
def main_setup (args : Args) (tsName : String) (dirExists : Bool) : List Effect :=
  let r := create_repository args.repository tsName dirExists
  r.2 ++ (if ¬r.1 then configure_git args.user_name args.user_email else [])

/-- `validate_args` (lines 103–122). `repoExists` is the outcome of the
`gh repo view` subprocess check; `startIsDatetime` records the Python
runtime type of `args.day_start` (`datetime` on the CLI path built by
`Args.from_argparse`, plain `date` on the GUI path); `todayDays` is
`datetime.now().date()` as an epoch day. CPython refuses ordering
comparisons between `datetime.datetime` and `datetime.date`, so the check
`args.day_start > datetime.now().date()` on line 120 raises `TypeError`
whenever `day_start` is a `datetime`. -/
def validate_args (repository : String) (repoExists : Bool)
    (day_start day_end : Nat) (startIsDatetime : Bool) (todayDays : Nat) :
    Except String Unit :=
  if repository = "" then .error "Repository name is required"
  else if !repoExists then .error "Repository does not exist"
  else if day_end < day_start then .error "Start date cannot be after end date"
  else if startIsDatetime then
    .error "TypeError: cannot compare datetime.datetime to datetime.date"
  else if todayDays < dayOf day_start then .error "Start date cannot be in the future"
  else .ok ()

/-- The literal characters of `git@github.com:` (the fixed head of the
pattern `git@github\.com:.+/(.+)(?:\.git)?$` in `extract_repo_name`). -/
def ghHead : List Char := "git@github.com:".data

/-- The text a match ending at `$` may cover: Python's `$` (without
`re.MULTILINE`) also matches just before one trailing newline, and `.`
cannot consume that newline, so one final newline is shaved off. -/
def effText (r : List Char) : List Char :=
  if r.getLast? = some '\n' then r.dropLast else r

/-- The slash chosen by the greedy `.+` of `.+/(.+)(?:\.git)?$` on text `t`:
the rightmost index holding `/` that leaves at least one character before it
and at least one after it. -/
def slashIdx (t : List Char) : Option Nat :=
  ((List.range t.length).filter
    (fun j => t.getD j ' ' == '/' && decide (1 ≤ j) && decide (j + 2 ≤ t.length))).getLast?

/-- Python `re` semantics of matching `.+/(.+)(?:\.git)?$` against the text
`r` that follows the fixed head: `.` never matches a newline, so a match
forces the covered text newline-free; the greedy `.+` picks the rightmost
eligible `/`, and group 1 is everything after that slash (the optional
`\.git` group then matches the empty string). Returns group 1. -/
def tailMatch (r : List Char) : Option (List Char) :=
  if (effText r).contains '\n' then none
  else
    match slashIdx (effText r) with
    | some j => some ((effText r).drop (j + 1))
    | none => none

/-- One attempt of `re.search` at a fixed start position: the literal head
must match there, then the tail pattern runs on the remainder. -/
def tryAt (cs : List Char) : Option (List Char) :=
  if ghHead.isPrefixOf cs then tailMatch (cs.drop ghHead.length) else none

/-- `re.search` of the full pattern: try each start position left to right;
on failure resume the scan one character further. Returns group 1 of the
first successful match. -/
def findMatch : List Char → Option (List Char)
  | [] => none
  | c :: rest =>
    match tryAt (c :: rest) with
    | some g => some g
    | none => findMatch rest

/-- `extract_repo_name` (lines 141–147): `match.group(1) if match else ''`. -/
def extract_repo_name (repository : String) : String :=
  match findMatch repository.data with
  | some g => ⟨g⟩
  | none => ""

/-- The CLI default for `--day_end` (`parse_arguments`, line 99): the flag
value when given, the literal string `now` when omitted. -/
def cliDayEndString (flag : Option String) : String := flag.getD "now"

/-- The `day_end` computation of `Args.from_argparse` (line 63):
`datetime.strptime(args.day_end, '%Y-%m-%d') if args.day_end != 'now' else
datetime.now()`. `strptime` models the Python parse (which may raise). -/
def fromArgparseDayEnd (de : String) (now : Nat)
    (strptime : String → Except String Nat) : Except String Nat :=
  if de = "now" then .ok now else strptime de

/-- 2024-01-01 (a Monday) as an epoch day. -/
def day20240101 : Nat := 19723

/-- 2024-01-06 (a Saturday) as an epoch day. -/
def day20240106 : Nat := 19728

/-- A concrete random outcome: every `rand` is `0`, both raw integer draws
are `1` for every day. -/
def oracle1 : Oracle := { rand := fun _ => 0, int1 := fun _ => 1, int2 := fun _ => 1 }

/-- A concrete random outcome: every `rand` is `0`, both raw integer draws
are `0` for every day. -/
def oracle0 : Oracle := { rand := fun _ => 0, int1 := fun _ => 0, int2 := fun _ => 0 }

/-- Parameters with weekend exclusion on, over the single Saturday
2024-01-06, frequency 100, max-commits 3. -/
def argsSat : Args :=
  { no_weekends := true, max_commits := 3, frequency := 100,
    repository := "hieundx/github-activity-generator", user_name := "", user_email := "",
    day_start := day20240106 * 1440, day_end := day20240106 * 1440 }

/-- Parameters with requested max-commits 0 (which the spec says behaves
as 1), frequency 100, single day 2024-01-01. -/
def argsMc0 : Args :=
  { no_weekends := false, max_commits := 0, frequency := 100,
    repository := "hieundx/github-activity-generator", user_name := "", user_email := "",
    day_start := day20240101 * 1440, day_end := day20240101 * 1440 }

/-- Parameters with frequency 100, max-commits 3, single weekday
2024-01-01 (a Monday). -/
def argsFreq100 : Args :=
  { no_weekends := false, max_commits := 3, frequency := 100,
    repository := "hieundx/github-activity-generator", user_name := "", user_email := "",
    day_start := day20240101 * 1440, day_end := day20240101 * 1440 }

/-- Valid parameters with the minimum max-commits value 1, frequency 100,
over the two days 2024-03-04 and 2024-03-05. -/
def argsMc1 : Args :=
  { no_weekends := false, max_commits := 1, frequency := 100,
    repository := "hieundx/github-activity-generator", user_name := "", user_email := "",
    day_start := 19786 * 1440, day_end := 19787 * 1440 }

/-- The end-to-end scenario of the spec: start = end = 2024-01-01,
no weekend exclusion, frequency 100, max-commits 1. -/
def argsSpecE2E : Args :=
  { no_weekends := false, max_commits := 1, frequency := 100,
    repository := "hieundx/github-activity-generator", user_name := "", user_email := "",
    day_start := day20240101 * 1440, day_end := day20240101 * 1440 }

/-- Parameters carrying a non-empty author name and email, for the
repository-initialisation contract. -/
def argsUser : Args :=
  { no_weekends := false, max_commits := 10, frequency := 80,
    repository := "hieundx/github-activity-generator", user_name := "alice",
    user_email := "alice@example.com",
    day_start := day20240101 * 1440, day_end := day20240101 * 1440 }

/-- Concrete valid parameters for instantiating the scheduler range
theorem: the single epoch day 0, frequency 100, max-commits 3. -/
def argsDay0 : Args :=
  { no_weekends := false, max_commits := 3, frequency := 100,
    repository := "hieundx/github-activity-generator", user_name := "", user_email := "",
    day_start := 0, day_end := 0 }

/-! ## Basic facts about the scheduler's draws -/

lemma npRandint_ok {draw low high v : Nat} (h : npRandint draw low high = .ok v) :
    low < high ∧ low ≤ v ∧ v < high := by
  unfold npRandint at h
  split at h
  · cases h
  · rename_i hlt
    cases h
    refine ⟨by omega, by omega, ?_⟩
    have := Nat.mod_lt draw (y := high - low) (by omega)
    omega

lemma commitDataEntry_ok {mc freq : Nat} {o : Oracle} {i c : Nat}
    (h : commitDataEntry mc freq o i = .ok c) : c = 0 ∨ c + 2 ≤ mc := by
  unfold commitDataEntry at h
  split at h
  · cases h1 : npRandint (o.int1 i) 1 mc with
    | error e => rw [h1] at h; cases h
    | ok k =>
      rw [h1] at h
      obtain ⟨hmc, hk1, hk2⟩ := npRandint_ok h1
      obtain ⟨-, -, hc⟩ := npRandint_ok h
      right; omega
  · cases h; left; rfl

lemma commitData_ok {mc freq : Nat} {o : Oracle} {is cd : List Nat}
    (h : commitData mc freq o is = .ok cd) :
    cd.length = is.length ∧ ∀ c ∈ cd, c = 0 ∨ c + 2 ≤ mc := by
  induction is generalizing cd with
  | nil => cases h; simp
  | cons i is ih =>
    unfold commitData at h
    cases he : commitDataEntry mc freq o i with
    | error e => rw [he] at h; cases h
    | ok c =>
      rw [he] at h
      cases hr : commitData mc freq o is with
      | error e => rw [hr] at h; cases h
      | ok cs =>
        rw [hr] at h
        cases h
        obtain ⟨hl, hb⟩ := ih hr
        refine ⟨by simp [hl], ?_⟩
        intro x hx
        rcases List.mem_cons.mp hx with rfl | hx
        · exact commitDataEntry_ok he
        · exact hb x hx

lemma mem_dayCommits {t d c : Nat} : t ∈ dayCommits d c ↔ 0 < c ∧ d ≤ t ∧ t < d + c := by
  unfold dayCommits
  split
  · rename_i hc
    simp only [List.mem_map, List.mem_range]
    constructor
    · rintro ⟨m, hm, rfl⟩; omega
    · rintro ⟨-, h1, h2⟩; exact ⟨t - d, by omega, by omega⟩
  · rename_i hc
    simp only [List.not_mem_nil, false_iff]
    omega

lemma mem_pdDateRange {s e d : Nat} (h : d ∈ pdDateRange s e) :
    s ≤ e ∧ ∃ n, n ≤ (e - s) / 1440 ∧ d = s + n * 1440 := by
  unfold pdDateRange at h
  split at h
  · simp at h
  · rename_i he
    simp only [List.mem_map, List.mem_range] at h
    obtain ⟨n, hn, rfl⟩ := h
    exact ⟨by omega, n, by omega, rfl⟩

lemma generate_commits_ok {args : Args} {o : Oracle} {ts : List Nat}
    (h : generate_commits args o = .ok ts) :
    ∃ cd, (pdDateRange args.day_start args.day_end).length = cd.length
      ∧ (∀ c ∈ cd, c = 0 ∨ c + 2 ≤ args.max_commits)
      ∧ ts = ((pdDateRange args.day_start args.day_end).zip cd).flatMap
          (fun p => dayCommits p.1 p.2) := by
  unfold generate_commits at h
  cases hcd : commitData args.max_commits args.frequency o
      (List.range (pdDateRange args.day_start args.day_end).length) with
  | error e => rw [hcd] at h; cases h
  | ok cd =>
    rw [hcd] at h
    cases h
    obtain ⟨hl, hb⟩ := commitData_ok hcd
    exact ⟨cd, by simp [hl], hb, rfl⟩

lemma dayCommits_pairwise (d c : Nat) : (dayCommits d c).Pairwise (· < ·) := by
  unfold dayCommits
  split
  · exact List.pairwise_map.mpr ((List.pairwise_lt_range c).imp (fun h => by omega))
  · exact List.Pairwise.nil

lemma flatMap_blocks_pairwise (l : List (Nat × Nat)) (hb : ∀ p ∈ l, p.2 ≤ 1440)
    (hp : l.Pairwise (fun p q => p.1 + 1440 ≤ q.1)) :
    (l.flatMap fun p => dayCommits p.1 p.2).Pairwise (· < ·) := by
  induction l with
  | nil => simp
  | cons p l ih =>
    rw [List.flatMap_cons, List.pairwise_append]
    refine ⟨dayCommits_pairwise _ _,
      ih (fun q hq => hb q (List.mem_cons_of_mem _ hq)) hp.of_cons, ?_⟩
    intro x hx y hy
    obtain ⟨q, hq, hyq⟩ := List.mem_flatMap.mp hy
    have h1 := mem_dayCommits.mp hx
    have h2 := mem_dayCommits.mp hyq
    have hrel := (List.pairwise_cons.mp hp).1 q hq
    have hbp := hb p (List.mem_cons_self p l)
    omega

lemma pdDateRange_zip_pairwise (s e : Nat) (cd : List Nat)
    (hlen : (pdDateRange s e).length ≤ cd.length) :
    ((pdDateRange s e).zip cd).Pairwise (fun p q => p.1 + 1440 ≤ q.1) := by
  have hds : (pdDateRange s e).Pairwise (fun a b => a + 1440 ≤ b) := by
    unfold pdDateRange
    split
    · simp
    · exact List.pairwise_map.mpr ((List.pairwise_lt_range _).imp (fun h => by omega))
  have hmap := List.map_fst_zip (pdDateRange s e) cd hlen
  have hiff := List.pairwise_map (f := (Prod.fst : Nat × Nat → Nat))
    (l := (pdDateRange s e).zip cd) (R := fun a b => a + 1440 ≤ b)
  rw [hmap] at hiff
  exact hiff.mp hds

/-- Claim C5: for every valid parameter set (start at midnight, max-commits
within the documented bound 20), every timestamp the scheduler emits lies
on a calendar day within the inclusive start–end range; every day that
receives a timestamp receives one at the day's base time (minute 0) and its
timestamps are contiguous minutes from that base; and the whole emitted
sequence is strictly increasing. -/
theorem generate_commits_range_spacing_sorted (args : Args) (o : Oracle) (ts : List Nat)
    (hmc : args.max_commits ≤ 20) (hstart : args.day_start % 1440 = 0)
    (hok : generate_commits args o = .ok ts) :
    (∀ t ∈ ts, dayOf args.day_start ≤ dayOf t ∧ dayOf t ≤ dayOf args.day_end)
    ∧ (∀ t ∈ ts, 1440 * dayOf t ∈ ts ∧ ∀ m, 1440 * dayOf t ≤ m → m ≤ t → m ∈ ts)
    ∧ ts.Pairwise (· < ·) := by
  obtain ⟨cd, hlen, hbnd, rfl⟩ := generate_commits_ok hok
  refine ⟨?_, ?_, ?_⟩
  · intro t ht
    obtain ⟨p, hp, htp⟩ := List.mem_flatMap.mp ht
    have hzip := List.of_mem_zip (a := p.1) (b := p.2) (by simpa using hp)
    obtain ⟨hse, n, hn, hpd⟩ := mem_pdDateRange hzip.1
    have hcb := hbnd _ hzip.2
    have hmem := mem_dayCommits.mp htp
    unfold dayOf
    omega
  · intro t ht
    obtain ⟨p, hp, htp⟩ := List.mem_flatMap.mp ht
    have hzip := List.of_mem_zip (a := p.1) (b := p.2) (by simpa using hp)
    obtain ⟨hse, n, hn, hpd⟩ := mem_pdDateRange hzip.1
    have hcb := hbnd _ hzip.2
    have hmem := mem_dayCommits.mp htp
    have hday : 1440 * dayOf t = p.1 := by unfold dayOf; omega
    constructor
    · refine List.mem_flatMap.mpr ⟨p, hp, mem_dayCommits.mpr ⟨hmem.1, ?_, ?_⟩⟩ <;> omega
    · intro m hm1 hm2
      refine List.mem_flatMap.mpr ⟨p, hp, mem_dayCommits.mpr ⟨hmem.1, ?_, ?_⟩⟩ <;> omega
  · refine flatMap_blocks_pairwise _ ?_ ?_
    · intro p hp
      have := hbnd _ (List.of_mem_zip (a := p.1) (b := p.2) (by simpa using hp)).2
      omega
    · exact pdDateRange_zip_pairwise _ _ _ (by omega)

/-- Claim C5 (witness): the scheduler theorem instantiated at the single
epoch day 0, max-commits 3, frequency 100 and the all-ones draws, where the
emitted sequence is `[0]`. -/
theorem generate_commits_range_spacing_sorted_witness :
    (argsDay0.max_commits ≤ 20 ∧ argsDay0.day_start % 1440 = 0
      ∧ generate_commits argsDay0 oracle1 = .ok [0])
    ∧ ((∀ t ∈ ([0] : List Nat), dayOf argsDay0.day_start ≤ dayOf t ∧ dayOf t ≤ dayOf argsDay0.day_end)
      ∧ (∀ t ∈ ([0] : List Nat), 1440 * dayOf t ∈ ([0] : List Nat)
          ∧ ∀ m, 1440 * dayOf t ≤ m → m ≤ t → m ∈ ([0] : List Nat))
      ∧ ([0] : List Nat).Pairwise (· < ·)) :=
  ⟨⟨by decide, by decide, by decide⟩,
   generate_commits_range_spacing_sorted argsDay0 oracle1 [0] (by decide) (by decide) (by decide)⟩

/-- Claim C1: with the weekend-exclusion flag on, over a range consisting of
the single Saturday 2024-01-06 at frequency 100, the live scheduler still
emits a timestamp on that Saturday for the all-ones draws — `generate_commits`
never consults `no_weekends`, contradicting the spec's weekend-skip rule. -/
theorem generate_commits_emits_on_saturday :
    argsSat.no_weekends = true
    ∧ generate_commits argsSat oracle1 = .ok [argsSat.day_start]
    ∧ isWeekend (dayOf argsSat.day_start) = true :=
  ⟨rfl, by decide, by decide⟩

/-- Claim C2: a requested max-commits of 0 is not clamped to 1: on a
selected day the scheduler evaluates `np.random.randint(1, 0)`, which
raises `ValueError: low >= high` instead of emitting one commit. -/
theorem generate_commits_mc0_raises :
    generate_commits argsMc0 oracle1 = .error "low >= high" := by decide

/-- Claim C3: at frequency 100 the day is always selected, but the commit
count is drawn from `np.random.randint(0, ·)` whose lower bound is 0: with
the all-zero draws the single eligible weekday 2024-01-01 emits no
timestamp at all. -/
theorem generate_commits_freq100_can_emit_nothing :
    argsFreq100.frequency = 100
    ∧ (pdDateRange argsFreq100.day_start argsFreq100.day_end).length = 1
    ∧ generate_commits argsFreq100 oracle0 = .ok [] :=
  ⟨rfl, by decide, by decide⟩

lemma mkRat_100_100 : mkRat 100 100 = 1 := by
  norm_num [Rat.mkRat_eq_divInt, Rat.divInt_eq_div]

lemma commitData_first_raises {mc freq : Nat} {o : Oracle} {is : List Nat} {i : Nat} {e : String}
    (h : commitDataEntry mc freq o i = .error e) :
    commitData mc freq o (i :: is) = .error e := by
  unfold commitData
  rw [h]

/-- Claim C4: the scheduler is not total over valid inputs: with the
documented minimum max-commits value 1 (here over the two valid days
2024-03-04/05 at frequency 100), any draw sequence that selects the first
day reaches `np.random.randint(1, 1)` and raises `ValueError: low >= high`. -/
theorem generate_commits_mc1_raises (o : Oracle) (hu : o.rand 0 < 1) :
    generate_commits argsMc1 o = .error "low >= high" := by
  have hsel : o.rand 0 < mkRat 100 100 := by rw [mkRat_100_100]; exact hu
  have h0 : commitDataEntry argsMc1.max_commits argsMc1.frequency o 0 = .error "low >= high" := by
    unfold commitDataEntry
    rw [show argsMc1.max_commits = 1 from rfl, show argsMc1.frequency = 100 from rfl,
      show ((100 : Nat) : Int) = (100 : Int) from rfl, if_pos hsel]
    rfl
  have hR : List.range (pdDateRange argsMc1.day_start argsMc1.day_end).length = [0, 1] := by
    decide
  unfold generate_commits
  rw [hR, commitData_first_raises h0]

/-- Claim C4 (witness): the raising run realised at the all-ones draws. -/
theorem generate_commits_mc1_raises_witness :
    oracle1.rand 0 < 1 ∧ generate_commits argsMc1 oracle1 = .error "low >= high" :=
  ⟨by decide, generate_commits_mc1_raises oracle1 (by decide)⟩

/-- Claim C7: the spec's end-to-end scenario (start = end = 2024-01-01,
no weekend exclusion, frequency 100, max-commits 1) never produces the
promised single commit: the day is always selected and the scheduler
raises `ValueError: low >= high` from `np.random.randint(1, 1)`, for every
draw sequence. -/
theorem spec_e2e_scenario_raises (o : Oracle) (hu : o.rand 0 < 1) :
    generate_commits argsSpecE2E o = .error "low >= high" := by
  have hsel : o.rand 0 < mkRat 100 100 := by rw [mkRat_100_100]; exact hu
  have h0 : commitDataEntry argsSpecE2E.max_commits argsSpecE2E.frequency o 0 =
      .error "low >= high" := by
    unfold commitDataEntry
    rw [show argsSpecE2E.max_commits = 1 from rfl, show argsSpecE2E.frequency = 100 from rfl,
      show ((100 : Nat) : Int) = (100 : Int) from rfl, if_pos hsel]
    rfl
  have hR : List.range (pdDateRange argsSpecE2E.day_start argsSpecE2E.day_end).length = [0] := by
    decide
  unfold generate_commits
  rw [hR, commitData_first_raises h0]

/-- Claim C7 (witness): the raising end-to-end run realised at the
all-ones draws. -/
theorem spec_e2e_scenario_raises_witness :
    oracle1.rand 0 < 1 ∧ generate_commits argsSpecE2E oracle1 = .error "low >= high" :=
  ⟨by decide, spec_e2e_scenario_raises oracle1 (by decide)⟩

/-- Claim C6: `validate_args` does reject a missing repository and an end
date before the start date, but on the CLI path (where `day_start` is a
`datetime`) a fully valid parameter set never passes: line 120 compares the
`datetime` against `datetime.now().date()` and CPython raises `TypeError`
(inputs: repository present and existing, start 2024-01-01 ≤ end
2024-01-02, today well after the start). -/
theorem validate_args_cli_never_passes :
    validate_args "" true 0 0 true 0 = .error "Repository name is required"
    ∧ validate_args "hieundx/github-activity-generator" true
        (day20240101 * 1440 + 1440) (day20240101 * 1440) true 20000 =
        .error "Start date cannot be after end date"
    ∧ validate_args "hieundx/github-activity-generator" true
        (day20240101 * 1440) (day20240101 * 1440 + 1440) true 20000 =
        .error "TypeError: cannot compare datetime.datetime to datetime.date" :=
  ⟨by decide, by decide, by decide⟩

/-- Claim C8: `create_repository` returns `True` exactly when the directory
pre-existed; a pre-existing directory produces only a `chdir` (no `mkdir`,
no `git init`, and the caller skips identity configuration), while a fresh
directory is created, initialised on the fixed `main` branch, and the
caller applies the optional author name/email configuration. -/
theorem create_repository_contract (args : Args) (tsName : String) :
    ((create_repository args.repository tsName true).1 = true)
    ∧ ((create_repository args.repository tsName false).1 = false)
    ∧ main_setup args tsName true = [Effect.chdir (repoDirectory args.repository tsName)]
    ∧ main_setup args tsName false =
        [Effect.mkdir (repoDirectory args.repository tsName),
         Effect.chdir (repoDirectory args.repository tsName),
         Effect.gitInit MAIN_BRANCH] ++ configure_git args.user_name args.user_email
    ∧ (args.user_name ≠ "" → Effect.gitConfigName args.user_name ∈ main_setup args tsName false)
    ∧ (args.user_email ≠ "" → Effect.gitConfigEmail args.user_email ∈ main_setup args tsName false) := by
  refine ⟨rfl, rfl, by simp [main_setup, create_repository], by simp [main_setup, create_repository], ?_, ?_⟩
  · intro h
    simp [main_setup, create_repository, configure_git, h]
  · intro h
    simp [main_setup, create_repository, configure_git, h]

/-- Claim C8 (witness): the contract instantiated with a non-empty author
name and email, a fresh directory, and a concrete timestamp string. -/
theorem create_repository_contract_witness :
    ("alice" : String) ≠ ""
    ∧ ("alice@example.com" : String) ≠ ""
    ∧ Effect.gitConfigName "alice" ∈ main_setup argsUser "2024-01-01-00-00-00" false
    ∧ Effect.gitConfigEmail "alice@example.com" ∈ main_setup argsUser "2024-01-01-00-00-00" false :=
  ⟨by decide, by decide,
   (create_repository_contract argsUser "2024-01-01-00-00-00").2.2.2.2.1 (by decide),
   (create_repository_contract argsUser "2024-01-01-00-00-00").2.2.2.2.2 (by decide)⟩

/-! ## The regular expression of `extract_repo_name` -/

lemma slashIdx_spec {t : List Char} {j : Nat} (h : slashIdx t = some j) :
    t.getD j ' ' = '/' ∧ 1 ≤ j ∧ j + 2 ≤ t.length := by
  unfold slashIdx at h
  obtain ⟨ys, hys⟩ := List.getLast?_eq_some_iff.mp h
  have hmem : j ∈ (List.range t.length).filter
      (fun j => t.getD j ' ' == '/' && decide (1 ≤ j) && decide (j + 2 ≤ t.length)) := by
    rw [hys]
    exact List.mem_append_right _ (List.mem_singleton.mpr rfl)
  obtain ⟨-, hp⟩ := List.mem_filter.mp hmem
  simp only [Bool.and_eq_true, beq_iff_eq, decide_eq_true_eq] at hp
  exact ⟨hp.1.1, hp.1.2, hp.2⟩

lemma tailMatch_some_eq {r g : List Char} (h : tailMatch r = some g) :
    ∃ j, slashIdx (effText r) = some j ∧ g = (effText r).drop (j + 1) := by
  unfold tailMatch at h
  split at h
  · cases h
  · cases hj : slashIdx (effText r) with
    | none => rw [hj] at h; cases h
    | some j => rw [hj] at h; cases h; exact ⟨j, rfl, rfl⟩

lemma effText_sublist (r : List Char) : (effText r).Sublist r := by
  unfold effText
  split
  · exact List.dropLast_sublist r
  · exact List.Sublist.refl r

lemma effText_of_git (u : List Char) : effText (u ++ ".git".data) = u ++ ".git".data := by
  unfold effText
  rw [if_neg]
  intro heq
  rw [List.getLast?_append, show (".git".data : List Char).getLast? = some 't' from rfl] at heq
  exact absurd (Option.some.inj heq) (by decide)

lemma tailMatch_git {r g : List Char} (h : tailMatch r = some g)
    (hgit : ".git".data <:+ r) : ".git".data <:+ g := by
  obtain ⟨u, rfl⟩ := hgit
  obtain ⟨j, hj, rfl⟩ := tailMatch_some_eq h
  rw [effText_of_git] at hj ⊢
  obtain ⟨hslash, hj1, hj2⟩ := slashIdx_spec hj
  have hlen : (u ++ ".git".data).length = u.length + 4 := by
    rw [List.length_append]; rfl
  rw [hlen] at hj2
  have hj5 : j + 5 ≤ u.length + 4 := by
    by_contra hcon
    have hge : u.length ≤ j := by omega
    rw [List.getD_append_right u (".git".data) ' ' j hge] at hslash
    have h3 : j - u.length = 0 ∨ j - u.length = 1 ∨ j - u.length = 2 := by omega
    rcases h3 with h3 | h3 | h3 <;> rw [h3] at hslash <;> exact absurd hslash (by decide)
  have key : (".git".data : List Char) =
      ((u ++ ".git".data).drop (j + 1)).drop (u.length + 4 - (j + 1) - 4) := by
    rw [List.drop_drop]
    rw [show (j + 1) + (u.length + 4 - (j + 1) - 4) = u.length from by omega]
    rw [List.drop_left]
  have hs := List.drop_suffix (u.length + 4 - (j + 1) - 4) ((u ++ ".git".data).drop (j + 1))
  rw [← key] at hs
  exact hs

lemma findMatch_some : ∀ {cs g : List Char}, findMatch cs = some g →
    ∃ r, r <:+ cs ∧ tailMatch r = some g := by
  intro cs
  induction cs with
  | nil => intro g h; simp [findMatch] at h
  | cons c rest ih =>
    intro g h
    unfold findMatch at h
    cases ht : tryAt (c :: rest) with
    | some g' =>
      rw [ht] at h
      cases h
      unfold tryAt at ht
      split at ht
      · exact ⟨(c :: rest).drop ghHead.length, List.drop_suffix _ _, ht⟩
      · cases ht
    | none =>
      rw [ht] at h
      obtain ⟨r, hr, htm⟩ := ih h
      exact ⟨r, hr.trans (List.suffix_cons c rest), htm⟩

/-- Claim C9: `extract_repo_name` is total and returns the empty string on
any non-matching input; and whenever the input ends in `.git` and the
pattern matches, the returned group still carries the `.git` suffix (the
greedy `.+` consumes it before the optional `(?:\.git)?` can); in
particular the repository's own SSH URL maps to a name ending in `.git`. -/
theorem extract_repo_name_total_and_keeps_git_suffix :
    (∀ s : String, findMatch s.data = none → extract_repo_name s = "")
    ∧ (∀ cs g : List Char, findMatch cs = some g → ".git".data <:+ cs → ".git".data <:+ g)
    ∧ extract_repo_name "git@github.com:hieundx/github-activity-generator.git" =
        "github-activity-generator.git" := by
  refine ⟨?_, ?_, by decide⟩
  · intro s h
    unfold extract_repo_name
    rw [h]
  · intro cs g hm hgit
    obtain ⟨r, hr, ht⟩ := findMatch_some hm
    rcases List.suffix_or_suffix_of_suffix hr hgit with hc | hc
    · obtain ⟨j, hj, rfl⟩ := tailMatch_some_eq ht
      obtain ⟨hslash, hj1, hj2⟩ := slashIdx_spec hj
      have hjlt : j < (effText r).length := by omega
      have hmem : '/' ∈ effText r := by
        rw [← hslash, List.getD_eq_getElem _ ' ' hjlt]
        exact List.getElem_mem hjlt
      have : '/' ∈ (".git".data : List Char) :=
        hc.sublist.mem ((effText_sublist r).mem hmem)
      exact absurd this (by decide)
    · exact tailMatch_git ht hc

/-- Claim C9 (witness): the totality part applied to a non-matching string
and the `.git`-retention part applied to the repository's SSH URL. -/
theorem extract_repo_name_witness :
    extract_repo_name "https://github.com/a/b" = ""
    ∧ (".git".data : List Char) <:+ "github-activity-generator.git".data :=
  ⟨extract_repo_name_total_and_keeps_git_suffix.1 "https://github.com/a/b" (by decide),
   extract_repo_name_total_and_keeps_git_suffix.2.1
     "git@github.com:hieundx/github-activity-generator.git".data
     "github-activity-generator.git".data (by decide) (by decide)⟩

/-- Claim C10: when the end-date flag is omitted (defaulting to `now`) or
given as the literal string `now`, `Args.from_argparse` sets the run's end
date to the current moment instead of parsing (and possibly rejecting) it. -/
theorem day_end_defaults_to_now (flag : Option String) (now : Nat)
    (strptime : String → Except String Nat) (h : flag = none ∨ flag = some "now") :
    fromArgparseDayEnd (cliDayEndString flag) now strptime = .ok now := by
  rcases h with rfl | rfl <;> rfl

/-- Claim C10 (witness): the omitted-flag case at a concrete time, with a
`strptime` that would reject everything. -/
theorem day_end_defaults_to_now_witness :
    ((none : Option String) = none ∨ (none : Option String) = some "now")
    ∧ fromArgparseDayEnd (cliDayEndString none) 28401120 (fun _ => .error "unparseable") =
        .ok 28401120 :=
  ⟨Or.inl rfl,
   day_end_defaults_to_now none 28401120 (fun _ => .error "unparseable") (Or.inl rfl)⟩

end Contribute
